import Mathlib

/-!
Shallow embedding of the SumStack puzzle-game engine (`src/src/App.tsx`).

The grid is a `ROWS × COLS` array of optional tiles (`Block`), row 0 at the
top.  Randomness (`Math.random()` draws) is made explicit: every operation
that draws fresh tiles or a fresh target takes the draws as parameters
(a rational `u` with `0 ≤ u < 1` stands for one `Math.random()` call, and a
function `ℕ → String × ℚ` supplies the id/value draws of a freshly spawned
row).  JavaScript runtime errors (reading an element of `undefined`) are
modelled by `Option`: `none` is a thrown `TypeError`.
-/

-- Constants from App.tsx
def COLS : Nat := 6
def ROWS : Nat := 10
def INITIAL_ROWS : Nat := 4
def TARGET_MIN : Int := 10
def TARGET_MAX : Int := 25
def TIME_MODE_LIMIT : Int := 15

/-- A tile (`Block` in App.tsx): opaque id, value, transient selection flag. -/
structure Block where
  id : String
  value : Int
  isSelected : Bool
deriving DecidableEq

abbrev Cell := Option Block
abbrev Row := List Cell
abbrev Grid := List Row

inductive GameMode where
  | classic
  | time
deriving DecidableEq

inductive GamePhase where
  | menu
  | playing
  | paused
  | gameover
deriving DecidableEq

/-- The React state bundle: grid, target, score, mode, gameState, timeLeft. -/
structure GState where
  grid : Grid
  target : Int
  score : Int
  mode : GameMode
  gameState : GamePhase
  timeLeft : Int
deriving DecidableEq

/-- The `useState` initial values of App.tsx. -/
def initState : GState :=
  { grid := [], target := 0, score := 0, mode := .classic,
    gameState := .menu, timeLeft := TIME_MODE_LIMIT }

/-- `Math.floor(Math.random() * 9) + 1` with the random draw `u` explicit. -/
def randValue (u : ℚ) : Int := ⌊u * 9⌋ + 1

/-- `Math.floor(Math.random() * (TARGET_MAX - TARGET_MIN + 1)) + TARGET_MIN`. -/
def generateTarget (u : ℚ) : Int :=
  ⌊u * ((TARGET_MAX - TARGET_MIN + 1 : Int) : ℚ)⌋ + TARGET_MIN

/-- A freshly spawned tile: random id, random value, `isSelected: false`. -/
def mkBlock (id : String) (u : ℚ) : Block :=
  { id := id, value := randValue u, isSelected := false }

/-- `Array(COLS).fill(null).map(() => ({...}))`: one fresh bottom row. -/
def mkRow (f : ℕ → String × ℚ) : Row :=
  (List.range COLS).map (fun c => some (mkBlock (f c).1 (f c).2))

/-- The grid built by `initGame`: all empty except the bottom `INITIAL_ROWS`
rows, which are filled with fresh tiles. -/
def initGrid (f : ℕ → ℕ → String × ℚ) : Grid :=
  (List.range ROWS).map (fun r =>
    (List.range COLS).map (fun c =>
      if ROWS - INITIAL_ROWS ≤ r then some (mkBlock (f r c).1 (f r c).2)
      else none))

/-- `initGame(selectedMode)`: fresh grid, fresh target, score 0, playing,
timer reset. -/
def initGame (m : GameMode) (f : ℕ → ℕ → String × ℚ) (u : ℚ) : GState :=
  { grid := initGrid f, target := generateTarget u, score := 0, mode := m,
    gameState := .playing, timeLeft := TIME_MODE_LIMIT }

/-- `prevGrid[0].some(cell => cell !== null)`. -/
def topRowOccupied (g : Grid) : Bool :=
  (g.getD 0 []).any (fun cell => cell.isSome)

/-- The shift-and-spawn of `addRow`: row `r` becomes row `r+1`'s content for
`r < ROWS - 1`, and a fresh row becomes the bottom row. -/
def shiftUpSpawn (g : Grid) (f : ℕ → String × ℚ) : Grid :=
  (List.range ROWS).map (fun r =>
    if r < ROWS - 1 then g.getD (r + 1) [] else mkRow f)

/-- `addRow` on the grid alone: returns the new grid and the lost flag
(`true` exactly when the top row was occupied, in which case the grid is
returned unchanged). -/
def addRowFn (g : Grid) (f : ℕ → String × ℚ) : Grid × Bool :=
  if topRowOccupied g then (g, true) else (shiftUpSpawn g f, false)

/-- `addRow` on the full state: sets `gameState` to `gameover` when the top
row was occupied, otherwise shifts and spawns. -/
def addRowState (s : GState) (f : ℕ → String × ℚ) : GState :=
  let p := addRowFn s.grid f
  { s with grid := p.1, gameState := if p.2 then .gameover else s.gameState }

-- Grid cell access

/-- `grid[r]` for an integer index: `none` models JavaScript `undefined`
(out-of-bounds row read). -/
def rowAtZ (g : Grid) (r : Int) : Option Row :=
  if 0 ≤ r ∧ r < (g.length : Int) then some (g.getD r.toNat []) else none

/-- `row[c]` for an integer index: both an out-of-bounds column
(`undefined`) and an in-bounds `null` cell read as `none` (falsy). -/
def cellAtZRow (row : Row) (c : Int) : Cell :=
  if 0 ≤ c ∧ c < (row.length : Int) then row.getD c.toNat none else none

/-- Cell read with natural-number indices (used to state properties). -/
def cellN (g : Grid) (i j : ℕ) : Cell :=
  (g.getD i []).getD j none

/-- `newGrid[r][c] = v` (write at natural indices; out-of-bounds writes are
never reached by the engine). -/
def setCellN (g : Grid) (r c : ℕ) (v : Cell) : Grid :=
  g.set r ((g.getD r []).set c v)

/-- `{ ...block, isSelected: !block.isSelected }`. -/
def toggleB (b : Block) : Block :=
  { b with isSelected := !b.isSelected }

/-- The grid after the toggle write of `handleBlockClick`. -/
def toggleCellGrid (g : Grid) (r c : Int) (b : Block) : Grid :=
  setCellN g r.toNat c.toNat (some (toggleB b))

/-- The `selectedBlocks` array: row-major list of `(r, c, value)` of every
selected cell. -/
def selBlocks (g : Grid) : List (ℕ × ℕ × Int) :=
  (g.enum.map (fun p =>
    p.2.enum.filterMap (fun q =>
      match q.2 with
      | some b => if b.isSelected then some (p.1, q.1, b.value) else none
      | none => none))).flatten

/-- `selectedBlocks.reduce((acc, b) => acc + b.val, 0)`. -/
def sumSel (g : Grid) : Int :=
  (selBlocks g).foldl (fun acc b => acc + b.2.2) 0

/-- `selectedBlocks.forEach(b => { newGrid[b.r][b.c] = null; })`. -/
def clearCells (g : Grid) (ps : List (ℕ × ℕ × Int)) : Grid :=
  ps.foldl (fun acc p => setCellN acc p.1 p.2.1 none) g

/-- Overflow branch: every cell's `isSelected` is set to `false`. -/
def deselectAll (g : Grid) : Grid :=
  g.map (fun row => row.map (fun cell =>
    cell.map (fun b => { b with isSelected := false })))

-- Gravity (the per-column compaction loop of the Match branch)

/-- The inner gravity loop on one column (index 0 = top).  Fuel `i + 1`
processes row `i`, so the first call with fuel `ROWS` starts at the bottom
row, exactly like `for (let row = ROWS - 1; row >= 0; row--)`.  `emptyRow`
is the write pointer. -/
def gravAux : ℕ → List Cell → ℕ → List Cell
  | 0, col, _ => col
  | (i + 1), col, emptyRow =>
    match col.getD i none with
    | none => gravAux i col emptyRow
    | some b => gravAux i ((col.set i none).set emptyRow (some b)) (emptyRow - 1)

/-- One column's gravity pass. -/
def gravityCol (col : List Cell) : List Cell :=
  gravAux ROWS col (ROWS - 1)

/-- Column `c` of the grid, as read by the gravity loop. -/
def getCol (g : Grid) (c : ℕ) : List Cell :=
  g.map (fun row => row.getD c none)

/-- Write a whole column back into the grid. -/
def setColG (g : Grid) (c : ℕ) (col : List Cell) : Grid :=
  List.zipWith (fun row v => row.set c v) g col

/-- The full gravity pass: `for (let col = 0; col < COLS; col++) { ... }`;
each column is compacted independently, in place. -/
def applyGravity (g : Grid) : Grid :=
  (List.range COLS).foldl (fun acc c => setColG acc c (gravityCol (getCol acc c))) g

/-- `handleBlockClick(r, c)`.  Returns `none` when the JavaScript code would
throw (reading `grid[r][c]` with an out-of-bounds row index `r`), otherwise
`some` of the state after the click. -/
def handleBlockClick (s : GState) (r c : Int) (u : ℚ) (f : ℕ → String × ℚ) :
    Option GState :=
  if s.gameState ≠ .playing then some s
  else
    match rowAtZ s.grid r with
    | none => none
    | some row =>
      match cellAtZRow row c with
      | none => some s
      | some block =>
        let newGrid := toggleCellGrid s.grid r c block
        let sel := selBlocks newGrid
        let currentSum := sumSel newGrid
        if currentSum = s.target then
          let g1 := applyGravity (clearCells newGrid sel)
          let base : GState :=
            { s with grid := g1, score := s.score + (sel.length : Int) * 10,
                     target := generateTarget u }
          some (if s.mode = .classic then addRowState base f
                else { base with timeLeft := TIME_MODE_LIMIT })
        else if s.target < currentSum then
          some { s with grid := deselectAll newGrid }
        else
          some { s with grid := newGrid }

/-- One tick of the Time-mode interval (the interval only runs while
`gameState === 'playing' && mode === 'time'`). -/
def tickFn (s : GState) (f : ℕ → String × ℚ) : GState :=
  if s.gameState = .playing ∧ s.mode = .time then
    if s.timeLeft ≤ 1 then { addRowState s f with timeLeft := TIME_MODE_LIMIT }
    else { s with timeLeft := s.timeLeft - 1 }
  else s

-- The engine's external events and step function

/-- External events of the engine, with all random draws explicit. -/
inductive Ev where
  | start (m : GameMode) (f : ℕ → ℕ → String × ℚ) (u : ℚ)
  | click (r c : Int) (u : ℚ) (f : ℕ → String × ℚ)
  | tick (f : ℕ → String × ℚ)
  | pauseBtn
  | quitBtn
  | restartBtn

def Ev.isStart : Ev → Bool
  | .start _ _ _ => true
  | _ => false

/-- One engine transition.  `start` is only offered by the menu overlay;
the pause button is disabled in `menu`/`gameover` and otherwise toggles
playing/paused; the quit button always returns to the menu; the restart
button is only rendered on the game-over overlay. -/
def step (s : GState) : Ev → Option GState
  | .start m f u => some (if s.gameState = .menu then initGame m f u else s)
  | .click r c u f => handleBlockClick s r c u f
  | .tick f => some (tickFn s f)
  | .pauseBtn =>
      some (if s.gameState = .menu ∨ s.gameState = .gameover then s
            else { s with gameState := if s.gameState = .playing then .paused else .playing })
  | .quitBtn => some { s with gameState := .menu }
  | .restartBtn =>
      some (if s.gameState = .gameover then { s with gameState := .menu } else s)

/-- Run a sequence of events from a state. -/
def runSteps (s : GState) (evs : List Ev) : Option GState :=
  evs.foldl (fun acc e => acc.bind (fun st => step st e)) (some s)

/-- The shape invariant of every reachable non-empty grid: `ROWS` rows of
`COLS` cells each. -/
def WF (g : Grid) : Prop :=
  g.length = ROWS ∧ ∀ row ∈ g, row.length = COLS

/-- Holds when no cell of the grid is selected. -/
def NoSel (g : Grid) : Prop :=
  ∀ i j (b : Block), cellN g i j = some b → b.isSelected = false

-- ## Concrete instances (witness inputs and counterexample runs)

def fid : ℕ → String × ℚ := fun _ => ("a", 0)

def fgrid : ℕ → ℕ → String × ℚ := fun _ _ => ("a", 0)

def bC1 : Block := { id := "a", value := 1, isSelected := false }

def gridC1 : Grid :=
  List.replicate 9 (List.replicate 6 none) ++ [some bC1 :: List.replicate 5 none]

def rowC1 : Row := some bC1 :: List.replicate 5 none

def stC1 : GState :=
  { grid := gridC1, target := 1, score := 0, mode := .time,
    gameState := .playing, timeLeft := 15 }

def stC1res : GState :=
  { grid := List.replicate 10 (List.replicate 6 none), target := 10, score := 10,
    mode := .time, gameState := .playing, timeLeft := 15 }

def bC2 : Block := { id := "a", value := 9, isSelected := false }

def gridC2 : Grid :=
  List.replicate 9 (List.replicate 6 none) ++ [some bC2 :: List.replicate 5 none]

def rowC2 : Row := some bC2 :: List.replicate 5 none

def stC2 : GState :=
  { grid := gridC2, target := 5, score := 0, mode := .classic,
    gameState := .playing, timeLeft := 15 }

def gridTop : Grid :=
  (some bC1 :: List.replicate 5 none) :: List.replicate 9 (List.replicate 6 none)

def stTop : GState :=
  { grid := gridTop, target := 10, score := 0, mode := .classic,
    gameState := .playing, timeLeft := 15 }

def stPaused : GState :=
  { grid := gridC1, target := 1, score := 0, mode := .time,
    gameState := .paused, timeLeft := 15 }

def stT5 : GState :=
  { grid := gridC1, target := 1, score := 0, mode := .time,
    gameState := .playing, timeLeft := 5 }

def stT1 : GState :=
  { grid := gridC1, target := 1, score := 0, mode := .time,
    gameState := .playing, timeLeft := 1 }

def bGa : Block := { id := "g", value := 2, isSelected := false }

def bGb : Block := { id := "h", value := 5, isSelected := false }

def gridGrav : Grid :=
  [some bGa :: List.replicate 5 none] ++
    List.replicate 2 (List.replicate 6 none) ++
    [some bGb :: List.replicate 5 none] ++
    List.replicate 6 (List.replicate 6 none)

def evsC4a : List Ev :=
  [Ev.start .time fgrid 0, Ev.click 6 0 0 fid] ++ List.replicate 14 (Ev.tick fid)

def evsC4 : List Ev := evsC4a ++ [Ev.tick fid]

def evsC9 : List Ev :=
  [Ev.start .classic fgrid 0,
   Ev.click 9 0 0 fid, Ev.click 9 1 0 fid, Ev.click 9 2 0 fid,
   Ev.click 9 3 0 fid, Ev.click 9 4 0 fid, Ev.click 9 5 0 fid,
   Ev.click 8 0 0 fid, Ev.click 8 1 0 fid, Ev.click 8 2 0 fid,
   Ev.click 8 3 0 fid, Ev.quitBtn]

def bP : Block := { id := "p", value := 7, isSelected := true }

def bQ : Block := { id := "q", value := 8, isSelected := true }

def bS : Block := { id := "s", value := 3, isSelected := true }

def gridC10 : Grid :=
  List.replicate 9 (List.replicate 6 none) ++
    [[some bP, some bQ, some bS, none, none, none]]

def stC10 : GState :=
  { grid := gridC10, target := 15, score := 0, mode := .time,
    gameState := .playing, timeLeft := 7 }

def stC10res : GState :=
  { grid := List.replicate 9 (List.replicate 6 none) ++
      [[none, none, some { id := "s", value := 3, isSelected := false }, none, none, none]],
    target := 10, score := 20, mode := .time, gameState := .playing, timeLeft := 15 }


-- ## Helper lemmas: gravity

theorem gravAux_succ_none (i : ℕ) (col : List Cell) (e : ℕ)
    (h : col.getD i none = none) : gravAux (i + 1) col e = gravAux i col e := by
  simp only [gravAux]
  rw [h]

theorem gravAux_succ_some (i : ℕ) (col : List Cell) (e : ℕ) (b : Block)
    (h : col.getD i none = some b) :
    gravAux (i + 1) col e = gravAux i ((col.set i none).set e (some b)) (e - 1) := by
  simp only [gravAux]
  rw [h]

theorem length_gravAux (i : ℕ) : ∀ (col : List Cell) (e : ℕ),
    (gravAux i col e).length = col.length := by
  induction i with
  | zero => intro col e; rfl
  | succ i ih =>
    intro col e
    cases h : col.getD i none with
    | none => rw [gravAux_succ_none i col e h, ih]
    | some b =>
      rw [gravAux_succ_some i col e b h, ih]
      simp

theorem gravAux_invariant (orig : List Cell) :
    ∀ i : ℕ, i ≤ orig.length →
      gravAux i
        (orig.take i ++
          List.replicate (orig.length - i - ((orig.drop i).filterMap id).length) none ++
          ((orig.drop i).filterMap id).map some)
        (orig.length - 1 - ((orig.drop i).filterMap id).length) =
      List.replicate (orig.length - (orig.filterMap id).length) none ++
        (orig.filterMap id).map some := by
  intro i
  induction i with
  | zero =>
    intro _
    simp [gravAux]
  | succ i ih =>
    intro hi
    have hilt : i < orig.length := by omega
    have hdrop : orig.drop i = orig[i] :: orig.drop (i + 1) :=
      List.drop_eq_getElem_cons hilt
    have htake : orig.take (i + 1) = orig.take i ++ [orig[i]] := by
      rw [List.take_succ, List.getElem?_eq_getElem hilt]
      rfl
    have hk1 : ((orig.drop (i + 1)).filterMap id).length ≤ orig.length - (i + 1) := by
      calc ((orig.drop (i + 1)).filterMap id).length ≤ (orig.drop (i + 1)).length :=
            List.length_filterMap_le _ _
        _ = orig.length - (i + 1) := List.length_drop _ _
    set k₁ := ((orig.drop (i + 1)).filterMap id).length with hk₁
    set M := ((orig.drop (i + 1)).filterMap id).map some with hM
    have hti : (orig.take i).length = i := by
      rw [List.length_take]
      omega
    have hgetD :
        (orig.take (i + 1) ++
          List.replicate (orig.length - (i + 1) - k₁) none ++ M).getD i none = orig[i] := by
      rw [List.append_assoc]
      rw [List.getD_append _ _ _ i (by rw [List.length_take]; omega)]
      rw [List.getD_eq_getElem _ _ (by rw [List.length_take]; omega)]
      exact List.getElem_take _
    cases hcell : orig[i] with
    | none =>
      rw [gravAux_succ_none _ _ _ (hgetD.trans (by rw [hcell]))]
      have hocc0 : (orig.drop i).filterMap id = (orig.drop (i + 1)).filterMap id := by
        rw [hdrop, hcell]
        simp
      have hL :
          orig.take (i + 1) ++ List.replicate (orig.length - (i + 1) - k₁) none ++ M =
            orig.take i ++ List.replicate (orig.length - i - k₁) none ++ M := by
        rw [htake, hcell, List.append_assoc, List.append_assoc]
        have h1 : orig.length - i - k₁ = (orig.length - (i + 1) - k₁) + 1 := by omega
        rw [h1, List.replicate_succ]
        simp
      rw [hL]
      have hih := ih (by omega)
      rw [hocc0] at hih
      exact hih
    | some b =>
      rw [gravAux_succ_some _ _ _ _ (hgetD.trans (by rw [hcell]))]
      have hocc0 : (orig.drop i).filterMap id = b :: (orig.drop (i + 1)).filterMap id := by
        rw [hdrop, hcell]
        simp
      have hset :
          ((orig.take (i + 1) ++ List.replicate (orig.length - (i + 1) - k₁) none ++ M).set
              i none).set (orig.length - 1 - k₁) (some b) =
            orig.take i ++
              List.replicate (orig.length - i - (k₁ + 1)) none ++ (some b :: M) := by
        rw [htake, hcell]
        rw [List.append_assoc, List.append_assoc]
        rw [List.set_append, if_neg (by omega), hti, Nat.sub_self]
        have h1 : orig.length - i - k₁ = (orig.length - (i + 1) - k₁) + 1 := by omega
        have hcons :
            ([some b] ++ (List.replicate (orig.length - (i + 1) - k₁) none ++ M)).set 0 none =
              List.replicate (orig.length - i - k₁) none ++ M := by
          rw [h1, List.replicate_succ]
          rfl
        rw [hcons]
        rw [List.set_append, if_neg (by omega), hti]
        have h2 : orig.length - i - k₁ = (orig.length - i - (k₁ + 1)) + 1 := by omega
        rw [List.set_append, if_pos (by rw [List.length_replicate]; omega)]
        rw [h2, List.replicate_succ']
        rw [List.set_append, if_neg (by rw [List.length_replicate]; omega),
          List.length_replicate]
        have h3 : orig.length - 1 - k₁ - i - (orig.length - i - (k₁ + 1)) = 0 := by omega
        rw [h3]
        simp
      rw [hset]
      have hih := ih (by omega)
      rw [hocc0] at hih
      have herow : orig.length - 1 - k₁ - 1 = orig.length - 1 - (k₁ + 1) := by omega
      rw [herow]
      simpa using hih

theorem gravityCol_eq (col : List Cell) (h : col.length = ROWS) :
    gravityCol col =
      List.replicate (ROWS - (col.filterMap id).length) none ++
        (col.filterMap id).map some := by
  have hinv := gravAux_invariant col col.length (le_refl _)
  simp at hinv
  rw [h] at hinv
  exact hinv

theorem length_gravityCol (col : List Cell) : (gravityCol col).length = col.length :=
  length_gravAux ROWS col (ROWS - 1)

theorem length_getCol (g : Grid) (c : ℕ) : (getCol g c).length = g.length := by
  simp [getCol]

theorem length_setColG (g : Grid) (c : ℕ) (col : List Cell) (h : col.length = g.length) :
    (setColG g c col).length = g.length := by
  simp [setColG, h]

theorem WF_setColG {g : Grid} {col : List Cell} {c : ℕ} (hWF : WF g)
    (hcol : col.length = ROWS) : WF (setColG g c col) := by
  obtain ⟨hlen, hrow⟩ := hWF
  refine ⟨?_, ?_⟩
  · rw [length_setColG g c col (by rw [hcol, hlen]), hlen]
  · intro row' hmem
    rw [List.mem_iff_getElem] at hmem
    obtain ⟨i, hilt, hrow'⟩ := hmem
    simp only [setColG] at hrow'
    rw [List.getElem_zipWith] at hrow'
    rw [← hrow', List.length_set]
    exact hrow _ (List.getElem_mem _)

theorem getCol_setColG_self {g : Grid} {col : List Cell} {c : ℕ}
    (hlen : col.length = g.length) (hc : ∀ row ∈ g, c < row.length) :
    getCol (setColG g c col) c = col := by
  apply List.ext_getElem
  · rw [length_getCol, length_setColG g c col hlen, hlen]
  · intro i h1 h2
    simp only [getCol, setColG, List.getElem_map, List.getElem_zipWith]
    rw [List.getD_eq_getElem _ _ (by rw [List.length_set]; exact hc _ (List.getElem_mem _))]
    exact List.getElem_set_self _

theorem getCol_setColG_ne {g : Grid} {col : List Cell} {c c' : ℕ}
    (hlen : col.length = g.length) (hne : c' ≠ c) :
    getCol (setColG g c col) c' = getCol g c' := by
  apply List.ext_getElem
  · rw [length_getCol, length_setColG g c col hlen, length_getCol]
  · intro i h1 h2
    simp only [getCol, setColG, List.getElem_map, List.getElem_zipWith]
    rw [List.getD_eq_getElem?_getD, List.getD_eq_getElem?_getD,
      List.getElem?_set_ne (Ne.symm hne)]

theorem gravFold_props (cs : List ℕ) : ∀ (acc : Grid), WF acc → cs.Nodup →
    WF (cs.foldl (fun a c => setColG a c (gravityCol (getCol a c))) acc) ∧
    (∀ c', c' ∉ cs →
      getCol (cs.foldl (fun a c => setColG a c (gravityCol (getCol a c))) acc) c' =
        getCol acc c') ∧
    (∀ c' ∈ cs, c' < COLS →
      getCol (cs.foldl (fun a c => setColG a c (gravityCol (getCol a c))) acc) c' =
        gravityCol (getCol acc c')) := by
  induction cs with
  | nil =>
    intro acc hWF _
    exact ⟨hWF, fun _ _ => rfl, fun c' hmem => absurd hmem (List.not_mem_nil c')⟩
  | cons c cs ih =>
    intro acc hWF hnodup
    rw [List.nodup_cons] at hnodup
    have hlenF : (gravityCol (getCol acc c)).length = ROWS := by
      rw [length_gravityCol, length_getCol, hWF.1]
    have hWFF : WF (setColG acc c (gravityCol (getCol acc c))) := WF_setColG hWF hlenF
    have hlenF' : (gravityCol (getCol acc c)).length = acc.length := by
      rw [hlenF, hWF.1]
    obtain ⟨ihWF, ihout, ihin⟩ := ih _ hWFF hnodup.2
    rw [List.foldl_cons]
    refine ⟨ihWF, ?_, ?_⟩
    · intro c' hns
      have hne : c' ≠ c := fun h => hns (h ▸ List.mem_cons_self c cs)
      have hnotin : c' ∉ cs := fun h => hns (List.mem_cons_of_mem c h)
      rw [ihout c' hnotin, getCol_setColG_ne hlenF' hne]
    · intro c' hmem hcColLt
      rcases List.mem_cons.mp hmem with hceq | hcin
      · subst hceq
        rw [ihout c' hnodup.1]
        exact getCol_setColG_self hlenF' (fun row hrow => by rw [hWF.2 row hrow]; exact hcColLt)
      · have hne : c' ≠ c := fun h => hnodup.1 (h ▸ hcin)
        rw [ihin c' hcin hcColLt, getCol_setColG_ne hlenF' hne]

theorem WF_applyGravity {g : Grid} (hWF : WF g) : WF (applyGravity g) :=
  (gravFold_props (List.range COLS) g hWF (List.nodup_range COLS)).1

theorem applyGravity_getCol {g : Grid} (hWF : WF g) {c : ℕ} (hc : c < COLS) :
    getCol (applyGravity g) c = gravityCol (getCol g c) :=
  (gravFold_props (List.range COLS) g hWF (List.nodup_range COLS)).2.2 c
    (List.mem_range.mpr hc) hc

theorem applyGravity_col_spec {g : Grid} (hWF : WF g) {c : ℕ} (hc : c < COLS) :
    getCol (applyGravity g) c =
      List.replicate (ROWS - ((getCol g c).filterMap id).length) none ++
        ((getCol g c).filterMap id).map some := by
  rw [applyGravity_getCol hWF hc, gravityCol_eq _ (by rw [length_getCol, hWF.1])]

theorem filterMap_id_compact (m : ℕ) (occ : List Block) :
    (List.replicate m (none : Cell) ++ occ.map some).filterMap id = occ := by
  rw [List.filterMap_append]
  simp

theorem grid_ext {g₁ g₂ : Grid} (h₁ : WF g₁) (h₂ : WF g₂)
    (h : ∀ c, c < COLS → getCol g₁ c = getCol g₂ c) : g₁ = g₂ := by
  apply List.ext_getElem (by rw [h₁.1, h₂.1])
  intro i hi1 hi2
  apply List.ext_getElem (by rw [h₁.2 _ (List.getElem_mem _), h₂.2 _ (List.getElem_mem _)])
  intro j hj1 hj2
  have hjC : j < COLS := by rw [h₁.2 _ (List.getElem_mem _)] at hj1; exact hj1
  have hcol := congrArg (fun l => l[i]?) (h j hjC)
  simp only [getCol, List.getElem?_map] at hcol
  rw [List.getElem?_eq_getElem hi1, List.getElem?_eq_getElem hi2] at hcol
  simp only [Option.map_some'] at hcol
  have := Option.some.inj hcol
  rw [List.getD_eq_getElem _ _ hj1, List.getD_eq_getElem _ _ hj2] at this
  exact this

theorem applyGravity_idem {g : Grid} (hWF : WF g) :
    applyGravity (applyGravity g) = applyGravity g := by
  have hWF1 := WF_applyGravity hWF
  apply grid_ext (WF_applyGravity hWF1) hWF1
  intro c hc
  have hkle : ((getCol g c).filterMap id).length ≤ ROWS := by
    calc ((getCol g c).filterMap id).length ≤ (getCol g c).length :=
          List.length_filterMap_le _ _
      _ = ROWS := by rw [length_getCol, hWF.1]
  rw [applyGravity_getCol hWF1 hc, applyGravity_col_spec hWF hc,
    gravityCol_eq _ (by
      rw [List.length_append, List.length_replicate, List.length_map]
      omega),
    filterMap_id_compact]

-- ## Helper lemmas: cells, writes, selection

theorem getD_set_same {α : Type} (l : List α) {i : ℕ} (a d : α) (h : i < l.length) :
    (l.set i a).getD i d = a := by
  rw [List.getD_eq_getElem?_getD, List.getElem?_set_self h]
  rfl

theorem getD_set_diff {α : Type} (l : List α) {i j : ℕ} (a d : α) (h : i ≠ j) :
    (l.set i a).getD j d = l.getD j d := by
  rw [List.getD_eq_getElem?_getD, List.getElem?_set_ne h, ← List.getD_eq_getElem?_getD]

theorem getD_of_length_le {α : Type} (l : List α) {i : ℕ} (d : α) (h : l.length ≤ i) :
    l.getD i d = d := by
  rw [List.getD_eq_getElem?_getD, List.getElem?_eq_none h]
  rfl

theorem cellN_some_bounds {g : Grid} {i j : ℕ} {b : Block} (h : cellN g i j = some b) :
    i < g.length ∧ j < (g.getD i []).length := by
  refine ⟨?_, ?_⟩
  · by_contra hi
    push_neg at hi
    unfold cellN at h
    rw [getD_of_length_le g _ hi] at h
    simp at h
  · by_contra hj
    push_neg at hj
    unfold cellN at h
    rw [getD_of_length_le _ _ hj] at h
    exact Option.noConfusion h

theorem length_setCellN (g : Grid) (r c : ℕ) (v : Cell) :
    (setCellN g r c v).length = g.length := by
  simp [setCellN]

theorem rowD_setCellN_same (g : Grid) {r : ℕ} (c : ℕ) (v : Cell) (h : r < g.length) :
    (setCellN g r c v).getD r [] = (g.getD r []).set c v := by
  unfold setCellN
  rw [getD_set_same _ _ _ h]

theorem rowD_setCellN_diff (g : Grid) {r i : ℕ} (c : ℕ) (v : Cell) (h : i ≠ r) :
    (setCellN g r c v).getD i [] = g.getD i [] := by
  unfold setCellN
  rw [getD_set_diff _ _ _ (Ne.symm h)]

theorem rowlen_setCellN (g : Grid) (r c : ℕ) (v : Cell) (i : ℕ) :
    ((setCellN g r c v).getD i []).length = (g.getD i []).length := by
  rcases eq_or_ne i r with rfl | hne
  · rcases Nat.lt_or_ge i g.length with hi | hi
    · rw [rowD_setCellN_same g c v hi, List.length_set]
    · unfold setCellN
      rw [List.set_eq_of_length_le hi]
  · rw [rowD_setCellN_diff g c v hne]

theorem cellN_setCellN_same {g : Grid} {i j : ℕ} (v : Cell)
    (hi : i < g.length) (hj : j < (g.getD i []).length) :
    cellN (setCellN g i j v) i j = v := by
  unfold cellN
  rw [rowD_setCellN_same g j v hi, getD_set_same _ _ _ hj]

theorem cellN_setCellN_ne {g : Grid} {r c i j : ℕ} (v : Cell)
    (h : ¬(i = r ∧ j = c)) :
    cellN (setCellN g r c v) i j = cellN g i j := by
  unfold cellN
  rcases eq_or_ne i r with rfl | hne
  · have hj : j ≠ c := fun hj => h ⟨rfl, hj⟩
    rcases Nat.lt_or_ge i g.length with hi | hi
    · rw [rowD_setCellN_same g c v hi, getD_set_diff _ _ _ (Ne.symm hj)]
    · unfold setCellN
      rw [List.set_eq_of_length_le hi]
  · rw [rowD_setCellN_diff g c v hne]

theorem cellN_setCellN_cases (g : Grid) (r c i j : ℕ) (v : Cell) :
    cellN (setCellN g r c v) i j = cellN g i j ∨ cellN (setCellN g r c v) i j = v := by
  by_cases h : i = r ∧ j = c
  · obtain ⟨rfl, rfl⟩ := h
    rcases Nat.lt_or_ge i g.length with hi | hi
    · rcases Nat.lt_or_ge j (g.getD i []).length with hj | hj
      · exact Or.inr (cellN_setCellN_same v hi hj)
      · left
        unfold cellN
        rw [rowD_setCellN_same g j v hi, List.getD_eq_getElem?_getD,
          List.getElem?_eq_none (by rw [List.length_set]; exact hj),
          List.getD_eq_getElem?_getD (g.getD i []), List.getElem?_eq_none hj]
    · left
      unfold cellN setCellN
      rw [List.set_eq_of_length_le hi]
  · exact Or.inl (cellN_setCellN_ne v h)

theorem WF_setCellN {g : Grid} (hWF : WF g) (r c : ℕ) (v : Cell) :
    WF (setCellN g r c v) := by
  obtain ⟨hlen, hrow⟩ := hWF
  refine ⟨by rw [length_setCellN, hlen], ?_⟩
  intro row' hmem
  rw [List.mem_iff_getElem] at hmem
  obtain ⟨i, hilt, hrow'⟩ := hmem
  have : (setCellN g r c v).getD i [] = row' := by
    rw [List.getD_eq_getElem _ _ hilt, hrow']
  rw [← this, rowlen_setCellN]
  have higl : i < g.length := by rw [← length_setCellN g r c v]; exact hilt
  rw [List.getD_eq_getElem _ _ higl]
  exact hrow _ (List.getElem_mem _)

theorem length_clearCells (ps : List (ℕ × ℕ × Int)) : ∀ (g : Grid),
    (clearCells g ps).length = g.length := by
  induction ps with
  | nil => intro g; rfl
  | cons p ps ih =>
    intro g
    show (clearCells (setCellN g p.1 p.2.1 none) ps).length = _
    rw [ih, length_setCellN]

theorem rowlen_clearCells (ps : List (ℕ × ℕ × Int)) : ∀ (g : Grid) (i : ℕ),
    ((clearCells g ps).getD i []).length = (g.getD i []).length := by
  induction ps with
  | nil => intro g i; rfl
  | cons p ps ih =>
    intro g i
    show ((clearCells (setCellN g p.1 p.2.1 none) ps).getD i []).length = _
    rw [ih, rowlen_setCellN]

theorem WF_clearCells {g : Grid} (hWF : WF g) (ps : List (ℕ × ℕ × Int)) :
    WF (clearCells g ps) := by
  induction ps generalizing g with
  | nil => exact hWF
  | cons p ps ih => exact ih (WF_setCellN hWF p.1 p.2.1 none)

theorem cellN_clearCells_not_mem (ps : List (ℕ × ℕ × Int)) : ∀ (g : Grid) (i j : ℕ),
    (∀ p ∈ ps, ¬(i = p.1 ∧ j = p.2.1)) →
    cellN (clearCells g ps) i j = cellN g i j := by
  induction ps with
  | nil => intro g i j _; rfl
  | cons p ps ih =>
    intro g i j h
    show cellN (clearCells (setCellN g p.1 p.2.1 none) ps) i j = _
    rw [ih _ i j (fun q hq => h q (List.mem_cons_of_mem p hq)),
      cellN_setCellN_ne none (h p (List.mem_cons_self p ps))]

theorem cellN_clearCells_of_none (ps : List (ℕ × ℕ × Int)) : ∀ (g : Grid) (i j : ℕ),
    cellN g i j = none → cellN (clearCells g ps) i j = none := by
  induction ps with
  | nil => intro g i j h; exact h
  | cons p ps ih =>
    intro g i j h
    show cellN (clearCells (setCellN g p.1 p.2.1 none) ps) i j = none
    rcases cellN_setCellN_cases g p.1 p.2.1 i j none with hc | hc
    · exact ih _ i j (hc.trans h)
    · exact ih _ i j hc

theorem cellN_clearCells_mem (ps : List (ℕ × ℕ × Int)) : ∀ (g : Grid) (i j : ℕ),
    (∃ p ∈ ps, i = p.1 ∧ j = p.2.1) →
    i < g.length → j < (g.getD i []).length →
    cellN (clearCells g ps) i j = none := by
  induction ps with
  | nil =>
    intro g i j h _ _
    obtain ⟨p, hp, -⟩ := h
    exact absurd hp (List.not_mem_nil p)
  | cons p ps ih =>
    intro g i j h hi hj
    show cellN (clearCells (setCellN g p.1 p.2.1 none) ps) i j = none
    by_cases hpos : i = p.1 ∧ j = p.2.1
    · obtain ⟨h1, h2⟩ := hpos
      subst h1
      subst h2
      exact cellN_clearCells_of_none ps _ _ _ (cellN_setCellN_same none hi hj)
    · obtain ⟨q, hq, hqeq⟩ := h
      rcases List.mem_cons.mp hq with rfl | hq'
      · exact absurd hqeq hpos
      · exact ih _ i j ⟨q, hq', hqeq⟩ (by rw [length_setCellN]; exact hi)
          (by rw [rowlen_setCellN]; exact hj)

theorem mem_selBlocks {g : Grid} {t : ℕ × ℕ × Int} :
    t ∈ selBlocks g ↔
      ∃ b : Block, cellN g t.1 t.2.1 = some b ∧ b.isSelected = true ∧ b.value = t.2.2 := by
  unfold selBlocks
  rw [List.mem_flatten]
  constructor
  · rintro ⟨l, hl, htl⟩
    rw [List.mem_map] at hl
    obtain ⟨⟨ri, row⟩, hpmem, rfl⟩ := hl
    rw [List.mem_filterMap] at htl
    obtain ⟨⟨ci, cell⟩, hqmem, hfn⟩ := htl
    rw [List.mk_mem_enum_iff_getElem?] at hpmem
    rw [List.mk_mem_enum_iff_getElem?] at hqmem
    rcases cell with _ | b
    · exact absurd hfn (by simp)
    · simp only at hfn
      by_cases hsel : b.isSelected
      · rw [if_pos hsel] at hfn
        obtain rfl := Option.some.inj hfn
        refine ⟨b, ?_, hsel, rfl⟩
        unfold cellN
        rw [List.getD_eq_getElem?_getD, List.getD_eq_getElem?_getD, hpmem]
        simp [hqmem]
      · rw [if_neg hsel] at hfn
        exact absurd hfn (by simp)
  · rintro ⟨b, hcell, hsel, hval⟩
    obtain ⟨hi, hj⟩ := cellN_some_bounds hcell
    refine ⟨(g[t.1]).enum.filterMap (fun q =>
      match q.2 with
      | some b => if b.isSelected then some (t.1, q.1, b.value) else none
      | none => none), ?_, ?_⟩
    · rw [List.mem_map]
      refine ⟨(t.1, g[t.1]), ?_, rfl⟩
      rw [List.mk_mem_enum_iff_getElem?]
      exact List.getElem?_eq_getElem hi
    · rw [List.mem_filterMap]
      have hjlen : t.2.1 < (g[t.1]).length := by
        rw [List.getD_eq_getElem _ _ hi] at hj
        exact hj
      refine ⟨(t.2.1, (g[t.1])[t.2.1]), ?_, ?_⟩
      · rw [List.mk_mem_enum_iff_getElem?]
        exact List.getElem?_eq_getElem hjlen
      · have hcell' : (g[t.1])[t.2.1] = some b := by
          unfold cellN at hcell
          rw [List.getD_eq_getElem _ _ hi, List.getD_eq_getElem _ _ hjlen] at hcell
          exact hcell
        rw [hcell']
        simp only [hsel, if_pos]
        rw [hval]

theorem rowMap_getD (F : Block → Block) (row : Row) (j : ℕ) :
    (row.map (fun cell => cell.map F)).getD j none = (row.getD j none).map F := by
  rcases Nat.lt_or_ge j row.length with hj | hj
  · rw [List.getD_eq_getElem _ _ (by simpa using hj), List.getElem_map,
      List.getD_eq_getElem _ _ hj]
  · rw [getD_of_length_le _ _ (by simpa using hj), getD_of_length_le _ _ hj]
    rfl

theorem mapRows_getD (F : Block → Block) (g : Grid) (i : ℕ) :
    (g.map (fun row => row.map (fun cell => cell.map F))).getD i [] =
      (g.getD i []).map (fun cell => cell.map F) := by
  rcases Nat.lt_or_ge i g.length with hi | hi
  · rw [List.getD_eq_getElem _ _ (by simpa using hi), List.getElem_map,
      List.getD_eq_getElem _ _ hi]
  · rw [getD_of_length_le _ _ (by simpa using hi), getD_of_length_le _ _ hi]
    rfl

theorem cellN_deselectAll (g : Grid) (i j : ℕ) :
    cellN (deselectAll g) i j =
      (cellN g i j).map (fun b => { b with isSelected := false }) := by
  unfold cellN deselectAll
  rw [mapRows_getD]
  exact rowMap_getD _ _ _

theorem rowAtZ_some {g : Grid} {r : Int} {row : Row} (h : rowAtZ g r = some row) :
    0 ≤ r ∧ r.toNat < g.length ∧ g.getD r.toNat [] = row := by
  unfold rowAtZ at h
  by_cases hc : 0 ≤ r ∧ r < (g.length : Int)
  · rw [if_pos hc] at h
    exact ⟨hc.1, by omega, Option.some.inj h⟩
  · rw [if_neg hc] at h
    exact absurd h (by simp)

theorem cellAtZRow_some {row : Row} {c : Int} {b : Block} (h : cellAtZRow row c = some b) :
    0 ≤ c ∧ c.toNat < row.length ∧ row.getD c.toNat none = some b := by
  unfold cellAtZRow at h
  by_cases hc : 0 ≤ c ∧ c < (row.length : Int)
  · rw [if_pos hc] at h
    exact ⟨hc.1, by omega, h⟩
  · rw [if_neg hc] at h
    exact absurd h (by simp)

theorem cellN_toggleCellGrid_self {g : Grid} {r c : Int} {b : Block}
    (hrow : rowAtZ g r = some (g.getD r.toNat []))
    (hcell : cellAtZRow (g.getD r.toNat []) c = some b) :
    cellN (toggleCellGrid g r c b) r.toNat c.toNat = some (toggleB b) := by
  obtain ⟨-, hilt, -⟩ := rowAtZ_some hrow
  obtain ⟨-, hjlt, -⟩ := cellAtZRow_some hcell
  exact cellN_setCellN_same _ hilt hjlt

-- ## Helper lemmas: handleBlockClick branches

theorem handleBlockClick_not_playing {s : GState} {r c : Int} {u : ℚ}
    {f : ℕ → String × ℚ} (h : s.gameState ≠ .playing) :
    handleBlockClick s r c u f = some s := by
  unfold handleBlockClick
  rw [if_pos h]

theorem handleBlockClick_crash {s : GState} {r c : Int} {u : ℚ}
    {f : ℕ → String × ℚ} (hplay : s.gameState = .playing)
    (hrow : rowAtZ s.grid r = none) : handleBlockClick s r c u f = none := by
  simp only [handleBlockClick, hplay, hrow]
  simp

theorem handleBlockClick_noop {s : GState} {r c : Int} {u : ℚ}
    {f : ℕ → String × ℚ} {row : Row} (hplay : s.gameState = .playing)
    (hrow : rowAtZ s.grid r = some row) (hcell : cellAtZRow row c = none) :
    handleBlockClick s r c u f = some s := by
  simp only [handleBlockClick, hplay, hrow, hcell]
  simp

theorem handleBlockClick_match {s : GState} {r c : Int} {u : ℚ}
    {f : ℕ → String × ℚ} {row : Row} {block : Block}
    (hplay : s.gameState = .playing)
    (hrow : rowAtZ s.grid r = some row)
    (hcell : cellAtZRow row c = some block)
    (hsum : sumSel (toggleCellGrid s.grid r c block) = s.target) :
    handleBlockClick s r c u f =
      some (if s.mode = .classic then
              addRowState
                { s with
                  grid := applyGravity (clearCells (toggleCellGrid s.grid r c block)
                    (selBlocks (toggleCellGrid s.grid r c block))),
                  score := s.score +
                    ((selBlocks (toggleCellGrid s.grid r c block)).length : Int) * 10,
                  target := generateTarget u } f
            else
              { s with
                grid := applyGravity (clearCells (toggleCellGrid s.grid r c block)
                  (selBlocks (toggleCellGrid s.grid r c block))),
                score := s.score +
                  ((selBlocks (toggleCellGrid s.grid r c block)).length : Int) * 10,
                target := generateTarget u,
                timeLeft := TIME_MODE_LIMIT }) := by
  simp only [handleBlockClick, hplay, hrow, hcell, hsum]
  simp

theorem handleBlockClick_overflow {s : GState} {r c : Int} {u : ℚ}
    {f : ℕ → String × ℚ} {row : Row} {block : Block}
    (hplay : s.gameState = .playing)
    (hrow : rowAtZ s.grid r = some row)
    (hcell : cellAtZRow row c = some block)
    (hsum : s.target < sumSel (toggleCellGrid s.grid r c block)) :
    handleBlockClick s r c u f =
      some { s with grid := deselectAll (toggleCellGrid s.grid r c block) } := by
  have hne : ¬(sumSel (toggleCellGrid s.grid r c block) = s.target) := by omega
  simp only [handleBlockClick, hplay, hrow, hcell]
  rw [if_neg (by simp), if_neg hne, if_pos hsum]

theorem handleBlockClick_pending {s : GState} {r c : Int} {u : ℚ}
    {f : ℕ → String × ℚ} {row : Row} {block : Block}
    (hplay : s.gameState = .playing)
    (hrow : rowAtZ s.grid r = some row)
    (hcell : cellAtZRow row c = some block)
    (hsum : sumSel (toggleCellGrid s.grid r c block) < s.target) :
    handleBlockClick s r c u f =
      some { s with grid := toggleCellGrid s.grid r c block } := by
  have hne : ¬(sumSel (toggleCellGrid s.grid r c block) = s.target) := by omega
  have hne2 : ¬(s.target < sumSel (toggleCellGrid s.grid r c block)) := by omega
  simp only [handleBlockClick, hplay, hrow, hcell]
  rw [if_neg (by simp), if_neg hne, if_neg hne2]

theorem score_addRowState (s : GState) (f : ℕ → String × ℚ) :
    (addRowState s f).score = s.score := rfl

theorem target_addRowState (s : GState) (f : ℕ → String × ℚ) :
    (addRowState s f).target = s.target := rfl

theorem timeLeft_addRowState (s : GState) (f : ℕ → String × ℚ) :
    (addRowState s f).timeLeft = s.timeLeft := rfl

theorem grid_addRowState (s : GState) (f : ℕ → String × ℚ) :
    (addRowState s f).grid = (addRowFn s.grid f).1 := rfl

-- ## Helper lemmas: selection never survives a clear; fresh rows; ticks

theorem cellN_clearCells_cases (ps : List (ℕ × ℕ × Int)) : ∀ (g : Grid) (i j : ℕ),
    cellN (clearCells g ps) i j = cellN g i j ∨ cellN (clearCells g ps) i j = none := by
  induction ps with
  | nil => intro g i j; exact Or.inl rfl
  | cons p ps ih =>
    intro g i j
    show cellN (clearCells (setCellN g p.1 p.2.1 none) ps) i j = _ ∨ _
    rcases ih (setCellN g p.1 p.2.1 none) i j with hc | hc
    · rcases cellN_setCellN_cases g p.1 p.2.1 i j none with hc2 | hc2
      · exact Or.inl (hc.trans hc2)
      · exact Or.inr (hc.trans hc2)
    · exact Or.inr hc

theorem NoSel_clearSel (g : Grid) : NoSel (clearCells g (selBlocks g)) := by
  intro i j b h
  by_contra hsel
  rw [Bool.not_eq_false] at hsel
  rcases cellN_clearCells_cases (selBlocks g) g i j with hc | hc
  · rw [h] at hc
    have hcg : cellN g i j = some b := hc.symm
    have hmem : ((i, j, b.value) : ℕ × ℕ × Int) ∈ selBlocks g :=
      mem_selBlocks.mpr ⟨b, hcg, hsel, rfl⟩
    have hb := cellN_some_bounds hcg
    have := cellN_clearCells_mem (selBlocks g) g i j
      ⟨(i, j, b.value), hmem, rfl, rfl⟩ hb.1 hb.2
    rw [h] at this
    exact Option.noConfusion this
  · rw [h] at hc
    exact Option.noConfusion hc

theorem cellN_eq_getCol (g : Grid) (i j : ℕ) :
    cellN g i j = (getCol g j).getD i none := by
  unfold cellN getCol
  rcases Nat.lt_or_ge i g.length with hi | hi
  · rw [List.getD_eq_getElem (List.map (fun row => row.getD j none) g) none
      (by simpa using hi)]
    rw [List.getElem_map, List.getD_eq_getElem g [] hi]
  · rw [getD_of_length_le (List.map (fun row => row.getD j none) g) none
      (by simpa using hi)]
    rw [getD_of_length_le g [] hi]
    rfl

theorem NoSel_applyGravity {g : Grid} (hWF : WF g) (h : NoSel g) :
    NoSel (applyGravity g) := by
  intro i j b hcell
  have hb := cellN_some_bounds hcell
  have hWFg := WF_applyGravity hWF
  have hj : j < COLS := by
    have hrl := hWFg.2 _ (List.getElem_mem hb.1)
    rw [List.getD_eq_getElem _ _ hb.1] at hb
    rw [hrl] at hb
    exact hb.2
  rw [cellN_eq_getCol, applyGravity_col_spec hWF hj] at hcell
  have hmem : some b ∈
      (List.replicate (ROWS - ((getCol g j).filterMap id).length) (none : Cell) ++
        ((getCol g j).filterMap id).map some) := by
    rw [List.getD_eq_getElem?_getD] at hcell
    rcases heq : (List.replicate (ROWS - ((getCol g j).filterMap id).length) (none : Cell) ++
        ((getCol g j).filterMap id).map some)[i]? with _ | v
    · rw [heq] at hcell
      exact absurd hcell (by simp)
    · rw [heq] at hcell
      have hv : v = some b := hcell
      rw [List.getElem?_eq_some_iff] at heq
      obtain ⟨hlt, hget⟩ := heq
      rw [List.mem_iff_getElem]
      exact ⟨i, hlt, by rw [hget, hv]⟩
  rcases List.mem_append.mp hmem with hmem | hmem
  · exact absurd (List.eq_of_mem_replicate hmem) (by simp)
  · rw [List.mem_map] at hmem
    obtain ⟨b', hb'occ, hb'eq⟩ := hmem
    have hbb : b' = b := Option.some.inj hb'eq
    rw [List.mem_filterMap] at hb'occ
    obtain ⟨a, hamem, haeq⟩ := hb'occ
    have ha : a = some b' := haeq
    subst ha
    rw [List.mem_iff_getElem] at hamem
    obtain ⟨i', hi', hcol⟩ := hamem
    rw [← hbb]
    apply h i' j b'
    rw [cellN_eq_getCol, List.getD_eq_getElem _ _ hi', hcol]

theorem shiftUpSpawn_length (g : Grid) (f : ℕ → String × ℚ) :
    (shiftUpSpawn g f).length = ROWS := by
  simp [shiftUpSpawn]

theorem shiftUpSpawn_getD (g : Grid) (f : ℕ → String × ℚ) {r : ℕ} (hr : r < ROWS) :
    (shiftUpSpawn g f).getD r [] =
      if r < ROWS - 1 then g.getD (r + 1) [] else mkRow f := by
  unfold shiftUpSpawn
  rw [List.getD_eq_getElem _ _ (by simpa using hr), List.getElem_map, List.getElem_range]

theorem mkRow_noSel (f : ℕ → String × ℚ) (j : ℕ) (b : Block)
    (h : (mkRow f).getD j none = some b) : b.isSelected = false := by
  unfold mkRow at h
  rcases Nat.lt_or_ge j COLS with hj | hj
  · rw [List.getD_eq_getElem _ _ (by simpa using hj), List.getElem_map,
      List.getElem_range] at h
    obtain rfl := Option.some.inj h
    rfl
  · rw [getD_of_length_le _ _ (by simpa using hj)] at h
    exact Option.noConfusion h

theorem NoSel_addRowFn {g : Grid} (f : ℕ → String × ℚ) (h : NoSel g) :
    NoSel (addRowFn g f).1 := by
  unfold addRowFn
  by_cases htop : topRowOccupied g
  · rw [if_pos htop]
    exact h
  · rw [if_neg htop]
    intro i j b hcell
    have hb := cellN_some_bounds hcell
    rw [shiftUpSpawn_length] at hb
    unfold cellN at hcell
    rw [shiftUpSpawn_getD g f hb.1] at hcell
    by_cases hlast : i < ROWS - 1
    · rw [if_pos hlast] at hcell
      exact h (i + 1) j b hcell
    · rw [if_neg hlast] at hcell
      exact mkRow_noSel f j b hcell

theorem tickFn_decrement {s : GState} (f : ℕ → String × ℚ)
    (hp : s.gameState = .playing) (hm : s.mode = .time) (h : 1 < s.timeLeft) :
    tickFn s f = { s with timeLeft := s.timeLeft - 1 } := by
  unfold tickFn
  rw [if_pos ⟨hp, hm⟩, if_neg (by omega)]

theorem tickFn_fire {s : GState} (f : ℕ → String × ℚ)
    (hp : s.gameState = .playing) (hm : s.mode = .time) (h : s.timeLeft ≤ 1) :
    tickFn s f = { addRowState s f with timeLeft := TIME_MODE_LIMIT } := by
  unfold tickFn
  rw [if_pos ⟨hp, hm⟩, if_pos h]

theorem score_tickFn (s : GState) (f : ℕ → String × ℚ) :
    (tickFn s f).score = s.score := by
  unfold tickFn
  by_cases h1 : s.gameState = .playing ∧ s.mode = .time
  · rw [if_pos h1]
    by_cases h2 : s.timeLeft ≤ 1
    · rw [if_pos h2]
      rfl
    · rw [if_neg h2]
  · rw [if_neg h1]

theorem generateTarget_range (u : ℚ) (h0 : 0 ≤ u) (h1 : u < 1) :
    TARGET_MIN ≤ generateTarget u ∧ generateTarget u ≤ TARGET_MAX := by
  unfold generateTarget
  have h16 : ((TARGET_MAX - TARGET_MIN + 1 : Int) : ℚ) = 16 := by
    norm_num [TARGET_MIN, TARGET_MAX]
  rw [h16]
  have hl : (0 : ℤ) ≤ ⌊u * 16⌋ := Int.floor_nonneg.mpr (by positivity)
  have hu : ⌊u * 16⌋ < 16 := by
    apply Int.floor_lt.mpr
    push_cast
    linarith
  unfold TARGET_MIN TARGET_MAX
  omega

-- ## Claim theorems

/-- C1: in a Playing state, activating an in-bounds occupied cell whose toggle
makes the selected values sum to the target clears exactly the selected cells,
applies gravity (then the mode-specific post-clear action), adds
`10 × |selected|` to the score, and regenerates the target in
`[TARGET_MIN, TARGET_MAX]`. -/
theorem activateCell_match_spec (s : GState) (r c : Int) (u : ℚ) (f : ℕ → String × ℚ)
    (row : Row) (block : Block)
    (hplay : s.gameState = .playing)
    (hrow : rowAtZ s.grid r = some row)
    (hcell : cellAtZRow row c = some block)
    (hu0 : 0 ≤ u) (hu1 : u < 1)
    (hsum : sumSel (toggleCellGrid s.grid r c block) = s.target) :
    ∃ s', handleBlockClick s r c u f = some s' ∧
      s'.score = s.score +
        ((selBlocks (toggleCellGrid s.grid r c block)).length : Int) * 10 ∧
      TARGET_MIN ≤ s'.target ∧ s'.target ≤ TARGET_MAX ∧
      (∀ p ∈ selBlocks (toggleCellGrid s.grid r c block),
        cellN (clearCells (toggleCellGrid s.grid r c block)
          (selBlocks (toggleCellGrid s.grid r c block))) p.1 p.2.1 = none) ∧
      (∀ i j : ℕ,
        (∀ p ∈ selBlocks (toggleCellGrid s.grid r c block), ¬(i = p.1 ∧ j = p.2.1)) →
        cellN (clearCells (toggleCellGrid s.grid r c block)
          (selBlocks (toggleCellGrid s.grid r c block))) i j =
          cellN (toggleCellGrid s.grid r c block) i j) ∧
      s'.grid = (if s.mode = .classic then
          (addRowFn (applyGravity (clearCells (toggleCellGrid s.grid r c block)
            (selBlocks (toggleCellGrid s.grid r c block)))) f).1
        else applyGravity (clearCells (toggleCellGrid s.grid r c block)
          (selBlocks (toggleCellGrid s.grid r c block)))) := by
  refine ⟨_, handleBlockClick_match hplay hrow hcell hsum, ?_, ?_, ?_, ?_, ?_, ?_⟩
  · by_cases hm : s.mode = .classic
    · rw [if_pos hm]
      rfl
    · rw [if_neg hm]
  · by_cases hm : s.mode = .classic
    · rw [if_pos hm]
      exact (generateTarget_range u hu0 hu1).1
    · rw [if_neg hm]
      exact (generateTarget_range u hu0 hu1).1
  · by_cases hm : s.mode = .classic
    · rw [if_pos hm]
      exact (generateTarget_range u hu0 hu1).2
    · rw [if_neg hm]
      exact (generateTarget_range u hu0 hu1).2
  · intro p hp
    obtain ⟨b, hcb, -, -⟩ := mem_selBlocks.mp hp
    have hb := cellN_some_bounds hcb
    exact cellN_clearCells_mem _ _ _ _ ⟨p, hp, rfl, rfl⟩ hb.1 hb.2
  · intro i j hnot
    exact cellN_clearCells_not_mem _ _ i j hnot
  · by_cases hm : s.mode = .classic
    · rw [if_pos hm, if_pos hm]
      rfl
    · rw [if_neg hm, if_neg hm]

/-- C2: in a Playing state, activating an in-bounds occupied cell whose toggle
makes the selected sum exceed the target deselects every cell on the board,
removes no tile, changes no tile id or value, and leaves score and target
unchanged. -/
theorem activateCell_overflow_spec (s : GState) (r c : Int) (u : ℚ)
    (f : ℕ → String × ℚ) (row : Row) (block : Block)
    (hplay : s.gameState = .playing)
    (hrow : rowAtZ s.grid r = some row)
    (hcell : cellAtZRow row c = some block)
    (hsum : s.target < sumSel (toggleCellGrid s.grid r c block)) :
    ∃ s', handleBlockClick s r c u f = some s' ∧
      s'.score = s.score ∧ s'.target = s.target ∧
      (∀ i j : ℕ, cellN s'.grid i j =
        (cellN s.grid i j).map (fun b => { b with isSelected := false })) ∧
      (∀ i j : ℕ, (cellN s'.grid i j).isSome = (cellN s.grid i j).isSome) ∧
      (∀ i j (b : Block), cellN s'.grid i j = some b → b.isSelected = false) := by
  obtain ⟨hr0, hrlt, hrD⟩ := rowAtZ_some hrow
  obtain ⟨hc0, hclt, hcD⟩ := cellAtZRow_some hcell
  have hcellN : cellN s.grid r.toNat c.toNat = some block := by
    unfold cellN
    rw [hrD]
    exact hcD
  have hbounds := cellN_some_bounds hcellN
  have key : ∀ i j : ℕ, cellN (deselectAll (toggleCellGrid s.grid r c block)) i j =
      (cellN s.grid i j).map (fun b => { b with isSelected := false }) := by
    intro i j
    rw [cellN_deselectAll]
    unfold toggleCellGrid
    by_cases hpos : i = r.toNat ∧ j = c.toNat
    · obtain ⟨rfl, rfl⟩ := hpos
      rw [cellN_setCellN_same _ hbounds.1 hbounds.2, hcellN]
      rfl
    · rw [cellN_setCellN_ne _ hpos]
  refine ⟨_, handleBlockClick_overflow hplay hrow hcell hsum, rfl, rfl, key, ?_, ?_⟩
  · intro i j
    rw [key i j]
    simp
  · intro i j b h
    rw [key i j] at h
    rcases hc : cellN s.grid i j with _ | b0
    · rw [hc] at h
      exact Option.noConfusion h
    · rw [hc] at h
      obtain rfl := Option.some.inj h.symm
      rfl

/-- C3: row injection first checks the top row: when any cell of row 0 holds a
tile it returns the grid unchanged and reports loss (GameOver); the
shift-and-spawn happens only when row 0 is entirely empty. -/
theorem injectRow_loss_spec (g : Grid) (f : ℕ → String × ℚ) (s : GState) :
    (topRowOccupied g = true → addRowFn g f = (g, true)) ∧
    (topRowOccupied g = false → addRowFn g f = (shiftUpSpawn g f, false)) ∧
    (topRowOccupied s.grid = true →
      addRowState s f = { s with gameState := .gameover }) := by
  refine ⟨?_, ?_, ?_⟩
  · intro h
    unfold addRowFn
    rw [if_pos h]
  · intro h
    unfold addRowFn
    rw [if_neg (by simp [h])]
  · intro h
    unfold addRowState addRowFn
    rw [if_pos h]
    rfl

/-- C4 (amended): gravity runs only after all selected cells are cleared, so
after a successful Match no cell of the resulting grid is selected; but a
row-injection shift preserves each shifted tile verbatim — including its
selected flag — and only the freshly spawned bottom row is guaranteed
unselected. -/
theorem selection_after_moves :
    (∀ (g : Grid) (f : ℕ → String × ℚ) (r : ℕ), r < ROWS - 1 →
      (shiftUpSpawn g f).getD r [] = g.getD (r + 1) []) ∧
    (∀ (f : ℕ → String × ℚ) (j : ℕ) (b : Block),
      (mkRow f).getD j none = some b → b.isSelected = false) ∧
    (∀ (s : GState) (r c : Int) (u : ℚ) (f : ℕ → String × ℚ) (row : Row)
      (block : Block) (s' : GState), WF s.grid → s.gameState = .playing →
      rowAtZ s.grid r = some row → cellAtZRow row c = some block →
      sumSel (toggleCellGrid s.grid r c block) = s.target →
      handleBlockClick s r c u f = some s' →
      ∀ i j (b : Block), cellN s'.grid i j = some b → b.isSelected = false) := by
  refine ⟨?_, ?_, ?_⟩
  · intro g f r hr
    rw [shiftUpSpawn_getD g f (by omega), if_pos hr]
  · exact mkRow_noSel
  · intro s r c u f row block s' hWF hplay hrow hcell hsum hclick
    rw [handleBlockClick_match hplay hrow hcell hsum] at hclick
    obtain rfl := Option.some.inj hclick
    have hWFtog : WF (toggleCellGrid s.grid r c block) :=
      WF_setCellN hWF r.toNat c.toNat _
    have hWFclear : WF (clearCells (toggleCellGrid s.grid r c block)
        (selBlocks (toggleCellGrid s.grid r c block))) :=
      WF_clearCells hWFtog _
    have hnosel : NoSel (applyGravity (clearCells (toggleCellGrid s.grid r c block)
        (selBlocks (toggleCellGrid s.grid r c block)))) :=
      NoSel_applyGravity hWFclear (NoSel_clearSel _)
    by_cases hm : s.mode = .classic
    · rw [if_pos hm]
      intro i j b h
      exact NoSel_addRowFn f hnosel i j b h
    · rw [if_neg hm]
      intro i j b h
      exact hnosel i j b h

/-- C5 (amended): activating while not Playing is a no-op; while Playing, an
activation whose row index is in bounds but whose cell is empty or whose
column index is out of bounds is a no-op; but a row index outside the grid
while Playing makes `handleBlockClick` read an element of `undefined` and
throw (modelled by `none`). -/
theorem activate_invalid_input (s : GState) (r c : Int) (u : ℚ) (f : ℕ → String × ℚ) :
    (s.gameState ≠ .playing → handleBlockClick s r c u f = some s) ∧
    (∀ row : Row, s.gameState = .playing → rowAtZ s.grid r = some row →
      cellAtZRow row c = none → handleBlockClick s r c u f = some s) ∧
    (s.gameState = .playing → rowAtZ s.grid r = none →
      handleBlockClick s r c u f = none) ∧
    (r < 0 ∨ (s.grid.length : Int) ≤ r → rowAtZ s.grid r = none) ∧
    (∀ row : Row, c < 0 ∨ (row.length : Int) ≤ c → cellAtZRow row c = none) := by
  refine ⟨fun h => handleBlockClick_not_playing h,
    fun row hp hr hc => handleBlockClick_noop hp hr hc,
    fun hp hr => handleBlockClick_crash hp hr, ?_, ?_⟩
  · intro h
    unfold rowAtZ
    rw [if_neg (by omega)]
  · intro rowq h
    unfold cellAtZRow
    rw [if_neg (by omega)]

/-- C6: in TimeAttack while Playing, a tick with more than one second left
just decrements the countdown; the tick that would reach zero fires one row
injection and resets the countdown to `TIME_MODE_LIMIT`; and a successful
Match resets the countdown to `TIME_MODE_LIMIT` without firing row injection
(the grid is exactly clear-plus-gravity). -/
theorem timeAttack_clock_spec (s : GState) (f : ℕ → String × ℚ)
    (hm : s.mode = .time) (hp : s.gameState = .playing) :
    (1 < s.timeLeft → tickFn s f = { s with timeLeft := s.timeLeft - 1 }) ∧
    (s.timeLeft = 1 →
      tickFn s f = { addRowState s f with timeLeft := TIME_MODE_LIMIT }) ∧
    (∀ (r c : Int) (u : ℚ) (row : Row) (block : Block) (s' : GState),
      rowAtZ s.grid r = some row → cellAtZRow row c = some block →
      sumSel (toggleCellGrid s.grid r c block) = s.target →
      handleBlockClick s r c u f = some s' →
      s'.timeLeft = TIME_MODE_LIMIT ∧
      s'.grid = applyGravity (clearCells (toggleCellGrid s.grid r c block)
        (selBlocks (toggleCellGrid s.grid r c block)))) := by
  refine ⟨fun h => tickFn_decrement f hp hm h, fun h => tickFn_fire f hp hm (by omega), ?_⟩
  intro r c u row block s' hrow hcell hsum hclick
  rw [handleBlockClick_match hp hrow hcell hsum] at hclick
  have hnotc : ¬(s.mode = .classic) := by
    rw [hm]
    simp
  rw [if_neg hnotc] at hclick
  obtain rfl := Option.some.inj hclick
  exact ⟨rfl, rfl⟩

/-- C7: for a well-formed grid, gravity sends every column to its compacted
form: the occupied cells, in their original top-to-bottom order, occupy the
bottom of the column and all cells above them are empty; the result column
depends only on the input column. -/
theorem gravity_column_spec (g : Grid) (hWF : WF g) (c : ℕ) (hc : c < COLS) :
    getCol (applyGravity g) c =
      List.replicate (ROWS - ((getCol g c).filterMap id).length) none ++
        ((getCol g c).filterMap id).map some :=
  applyGravity_col_spec hWF hc

/-- C8: gravity compaction is idempotent on well-formed grids. -/
theorem gravity_idempotent (g : Grid) (hWF : WF g) :
    applyGravity (applyGravity g) = applyGravity g :=
  applyGravity_idem hWF

/-- C9 (amended): the score never decreases across any transition except
`start`: a non-`start` transition that succeeds yields a score greater than
or equal to the previous one, while an accepted `start` (from the menu)
resets the score to 0 and a `start` anywhere else leaves the state unchanged. -/
theorem score_monotone_except_start (s : GState) (e : Ev) (s' : GState)
    (h : step s e = some s') :
    (e.isStart = false → s.score ≤ s'.score) ∧
    (e.isStart = true → s'.score = 0 ∨ s' = s) := by
  cases e with
  | start m f u =>
    refine ⟨fun hf => absurd hf (by simp [Ev.isStart]), fun _ => ?_⟩
    simp only [step] at h
    obtain rfl := Option.some.inj h
    by_cases hmenu : s.gameState = .menu
    · rw [if_pos hmenu]
      exact Or.inl rfl
    · rw [if_neg hmenu]
      exact Or.inr rfl
  | click r c u f =>
    refine ⟨fun _ => ?_, fun ht => absurd ht (by simp [Ev.isStart])⟩
    simp only [step] at h
    by_cases hp : s.gameState = .playing
    · cases hr : rowAtZ s.grid r with
      | none =>
        rw [handleBlockClick_crash hp hr] at h
        exact Option.noConfusion h
      | some row =>
        cases hc : cellAtZRow row c with
        | none =>
          rw [handleBlockClick_noop hp hr hc] at h
          obtain rfl := Option.some.inj h
          exact le_refl _
        | some block =>
          rcases lt_trichotomy (sumSel (toggleCellGrid s.grid r c block)) s.target
            with hlt | heq | hgt
          · rw [handleBlockClick_pending hp hr hc hlt] at h
            obtain rfl := Option.some.inj h
            exact le_refl _
          · rw [handleBlockClick_match hp hr hc heq] at h
            obtain rfl := Option.some.inj h
            have hlen : (0 : Int) ≤
                ((selBlocks (toggleCellGrid s.grid r c block)).length : Int) * 10 := by
              positivity
            by_cases hmode : s.mode = .classic
            · rw [if_pos hmode, score_addRowState]
              show s.score ≤ s.score + _
              omega
            · rw [if_neg hmode]
              show s.score ≤ s.score + _
              omega
          · rw [handleBlockClick_overflow hp hr hc hgt] at h
            obtain rfl := Option.some.inj h
            exact le_refl _
    · rw [handleBlockClick_not_playing hp] at h
      obtain rfl := Option.some.inj h
      exact le_refl _
  | tick f =>
    refine ⟨fun _ => ?_, fun ht => absurd ht (by simp [Ev.isStart])⟩
    simp only [step] at h
    obtain rfl := Option.some.inj h
    rw [score_tickFn]
  | pauseBtn =>
    refine ⟨fun _ => ?_, fun ht => absurd ht (by simp [Ev.isStart])⟩
    simp only [step] at h
    obtain rfl := Option.some.inj h
    by_cases hg : s.gameState = .menu ∨ s.gameState = .gameover
    · rw [if_pos hg]
    · rw [if_neg hg]
  | quitBtn =>
    refine ⟨fun _ => ?_, fun ht => absurd ht (by simp [Ev.isStart])⟩
    simp only [step] at h
    obtain rfl := Option.some.inj h
    exact le_refl _
  | restartBtn =>
    refine ⟨fun _ => ?_, fun ht => absurd ht (by simp [Ev.isStart])⟩
    simp only [step] at h
    obtain rfl := Option.some.inj h
    by_cases hg : s.gameState = .gameover
    · rw [if_pos hg]
    · rw [if_neg hg]

-- ## C10 and the counterexamples

/-- C10: the Match decision is a function of the selected sum of the
post-toggle grid, also when the toggle deselects: in this Playing state the
three selected tiles 7, 8, 3 sum to 18, above the target 15; toggling the
selected 3 off leaves selected sum 15 = target, so the click is a Match that
clears the tiles 7 and 8, leaves the deselected 3 on the board, awards
`score += 20` and regenerates the target. -/
theorem toggle_off_triggers_match :
    stC10.gameState = .playing ∧ stC10.target = 15 ∧ sumSel stC10.grid = 18 ∧
    cellN stC10.grid 9 2 = some bS ∧ bS.isSelected = true ∧
    handleBlockClick stC10 9 2 0 fid = some stC10res :=
  ⟨rfl, rfl, by with_unfolding_all rfl, by with_unfolding_all rfl, rfl,
    by with_unfolding_all rfl⟩

/-- C4 counterexample: a reachable TimeAttack run (start, select the tile at
(6,0), let the countdown fire one row injection) in which the shifted tile
arrives at (5,0) with `isSelected` still `true` — selection survives the
row-shift. -/
theorem selection_survives_shift_cex :
    (runSteps initState evsC4a).map (fun st => (cellN st.grid 6 0, st.timeLeft)) =
      some (some { id := "a", value := 1, isSelected := true }, 1) ∧
    (runSteps initState evsC4).map (fun st => (cellN st.grid 5 0, st.timeLeft)) =
      some (some { id := "a", value := 1, isSelected := true }, 15) :=
  ⟨by with_unfolding_all rfl, by with_unfolding_all rfl⟩

/-- C5 counterexample: in a Playing state, activating a row index outside the
board (10, or -1) makes `handleBlockClick` read `grid[r][c]` on an
`undefined` row and throw, modelled by `none` — not the claimed no-op. -/
theorem activate_out_of_bounds_throws_cex :
    handleBlockClick stC1 10 0 0 fid = none ∧
    handleBlockClick stC1 (-1) 0 0 fid = none :=
  ⟨by with_unfolding_all rfl, by with_unfolding_all rfl⟩

/-- C9 counterexample: a reachable run (clear ten 1-tiles against target 10
for score 100, quit to the menu) followed by a `start` transition, which
resets the score from 100 to 0 — the score decreases across `start`. -/
theorem score_resets_on_start_cex :
    (runSteps initState evsC9).map (fun st => (st.score, st.gameState)) =
      some (100, GamePhase.menu) ∧
    (runSteps initState (evsC9 ++ [Ev.start .classic fgrid 0])).map
      (fun st => st.score) = some 0 :=
  ⟨by with_unfolding_all rfl, by with_unfolding_all rfl⟩

-- ## Witnesses

theorem WF_gridC1 : WF gridC1 :=
  ⟨by with_unfolding_all rfl, by decide⟩

theorem WF_gridGrav : WF gridGrav :=
  ⟨by with_unfolding_all rfl, by decide⟩

/-- Witness for C1 at a concrete Playing state: clicking the single 1-tile
with target 1 is a Match. -/
theorem activateCell_match_spec_witness :
    ∃ s', handleBlockClick stC1 9 0 0 fid = some s' ∧
      s'.score = stC1.score +
        ((selBlocks (toggleCellGrid stC1.grid 9 0 bC1)).length : Int) * 10 ∧
      TARGET_MIN ≤ s'.target ∧ s'.target ≤ TARGET_MAX := by
  obtain ⟨s', h1, h2, h3, h4, -, -, -⟩ :=
    activateCell_match_spec stC1 9 0 0 fid rowC1 bC1 rfl
      (by with_unfolding_all rfl) (by with_unfolding_all rfl)
      (by norm_num) (by norm_num) (by with_unfolding_all rfl)
  exact ⟨s', h1, h2, h3, h4⟩

/-- Witness for C2 at a concrete Playing state: clicking the single 9-tile
with target 5 overflows and deselects everything. -/
theorem activateCell_overflow_spec_witness :
    ∃ s', handleBlockClick stC2 9 0 0 fid = some s' ∧
      s'.score = stC2.score ∧ s'.target = stC2.target ∧
      (∀ i j (b : Block), cellN s'.grid i j = some b → b.isSelected = false) := by
  obtain ⟨s', h1, h2, h3, -, -, h6⟩ :=
    activateCell_overflow_spec stC2 9 0 0 fid rowC2 bC2 rfl
      (by with_unfolding_all rfl) (by with_unfolding_all rfl)
      (by with_unfolding_all decide)
  exact ⟨s', h1, h2, h3, h6⟩

/-- Witness for C3 at a grid whose top row is occupied. -/
theorem injectRow_loss_spec_witness :
    addRowFn gridTop fid = (gridTop, true) ∧
    addRowState stTop fid = { stTop with gameState := .gameover } :=
  ⟨(injectRow_loss_spec gridTop fid stTop).1 (by with_unfolding_all rfl),
    (injectRow_loss_spec gridTop fid stTop).2.2 (by with_unfolding_all rfl)⟩

/-- Witness for the amended C4: a concrete shift moves row 1 into row 0
verbatim, and a concrete Match leaves a fully unselected grid. -/
theorem selection_after_moves_witness :
    (shiftUpSpawn gridC1 fid).getD 0 [] = gridC1.getD 1 [] ∧
    (∀ i j (b : Block), cellN stC1res.grid i j = some b → b.isSelected = false) := by
  refine ⟨selection_after_moves.1 gridC1 fid 0 (by decide), ?_⟩
  exact selection_after_moves.2.2 stC1 9 0 0 fid rowC1 bC1 stC1res WF_gridC1 rfl
    (by with_unfolding_all rfl) (by with_unfolding_all rfl)
    (by with_unfolding_all rfl) (by with_unfolding_all rfl)

/-- Witness for the amended C5: a paused state ignores clicks, an empty cell
is a no-op, and an out-of-bounds row throws. -/
theorem activate_invalid_input_witness :
    handleBlockClick stPaused 9 0 0 fid = some stPaused ∧
    handleBlockClick stC1 0 0 0 fid = some stC1 ∧
    handleBlockClick stC1 10 3 0 fid = none :=
  ⟨(activate_invalid_input stPaused 9 0 0 fid).1 (by decide),
    (activate_invalid_input stC1 0 0 0 fid).2.1 (List.replicate 6 none) rfl
      (by with_unfolding_all rfl) (by with_unfolding_all rfl),
    (activate_invalid_input stC1 10 3 0 fid).2.2.1 rfl (by with_unfolding_all rfl)⟩

/-- Witness for C6: a tick at 5 seconds decrements, a tick at 1 second fires
the injection and resets, and a concrete Match resets the countdown. -/
theorem timeAttack_clock_spec_witness :
    tickFn stT5 fid = { stT5 with timeLeft := stT5.timeLeft - 1 } ∧
    tickFn stT1 fid = { addRowState stT1 fid with timeLeft := TIME_MODE_LIMIT } ∧
    stC1res.timeLeft = TIME_MODE_LIMIT :=
  ⟨(timeAttack_clock_spec stT5 fid rfl rfl).1 (by decide),
    (timeAttack_clock_spec stT1 fid rfl rfl).2.1 rfl,
    ((timeAttack_clock_spec stC1 fid rfl rfl).2.2 9 0 0 rowC1 bC1 stC1res
      (by with_unfolding_all rfl) (by with_unfolding_all rfl)
      (by with_unfolding_all rfl) (by with_unfolding_all rfl)).1⟩

/-- Witness for C7: compacting a concrete column with tiles at rows 0 and 3
stacks them at the bottom in order. -/
theorem gravity_column_spec_witness :
    getCol (applyGravity gridGrav) 0 =
      List.replicate (ROWS - ((getCol gridGrav 0).filterMap id).length) none ++
        ((getCol gridGrav 0).filterMap id).map some ∧
    getCol (applyGravity gridGrav) 0 =
      List.replicate 8 none ++ [some bGa, some bGb] := by
  refine ⟨gravity_column_spec gridGrav WF_gridGrav 0 (by decide), ?_⟩
  rw [gravity_column_spec gridGrav WF_gridGrav 0 (by decide)]
  with_unfolding_all rfl

/-- Witness for C8 on a concrete grid. -/
theorem gravity_idempotent_witness :
    applyGravity (applyGravity gridGrav) = applyGravity gridGrav :=
  gravity_idempotent gridGrav WF_gridGrav

/-- Witness for the amended C9: a concrete tick does not decrease the score. -/
theorem score_monotone_except_start_witness :
    stT5.score ≤ (tickFn stT5 fid).score :=
  (score_monotone_except_start stT5 (Ev.tick fid) (tickFn stT5 fid) rfl).1 rfl
